import Mathlib

set_option linter.unusedVariables false

namespace FastStream

/-- Opaque payload, error and log-context values of the dynamically typed
host program (`Any` / `SendableMessage` contents in the source). -/
abbrev Val := Nat

/-- Modelled from the spec: the Publisher collaborator
(`faststream/broker/types.py` only declares the `PublisherProtocol`; the
concrete publishers live outside `src/`).  A publisher is identified by an
id; its `publish(message, correlation_id)` call is recorded as an
observable `Event.publish`. -/
structure Publisher where
  pid : Nat
deriving DecidableEq, Repr

/-- Modelled from the spec: the Message Envelope (`StreamMessage`, whose
file `faststream/broker/message.py` is not under `src/`): correlation
identifier, raw payload view `body`, mutable `decoded_body`, mutable
`processed` flag.  Headers are omitted: no modelled operation reads them. -/
structure StreamMsg where
  correlation_id : Nat
  body : Val
  decoded_body : Val
  processed : Bool
deriving DecidableEq, Repr

/-- Modelled from the spec: a Middleware Scope
(`faststream/broker/middlewares.py` is not under `src/`): per message it
exposes a consume-scope wrapping the decoded body and a publish-scope
wrapping an outgoing value.  Both scopes are modelled by their wrapping
functions; scope teardown has no further observable effect here. -/
structure Middleware where
  consumeWrap : Val → Val
  publishWrap : Option Val → Option Val

/-- Modelled from the spec: the outcome of `h.handler.call_wrapped(message)`
(`faststream/broker/wrapper.py` is not under `src/`).  The wrapped call
either returns `Optional[WrappedReturn]` — `None`, or a pair of a sendable
result and an optional inline response publisher — or raises the
controlled-stop signal (`StopConsume`), a declared handler error
(`HandlerException`), or any other exception. -/
inductive HandlerOutcome where
  | success (result : Option (Option Val × Option Publisher))
  | stopConsume
  | handlerError (e : Val)
  | otherError (e : Val)

/-- One registered handler item (`HandlerItem` dataclass in
`faststream/broker/handler.py`): filter, parser, decoder, local
middlewares, the wrapped callable and its statically bound publishers
(`handler._publishers`).  `hid` instruments the item with an identity so
that invocations can be traced. -/
structure HandlerItem where
  hid : Nat
  filter : StreamMsg → Bool
  parser : Val → StreamMsg
  decoder : StreamMsg → Val
  middlewares : List Middleware
  call_wrapped : StreamMsg → HandlerOutcome
  publishers : List Publisher

/-- The Drain Lock (`MultiLock` in `faststream/broker/handler.py`): an
in-flight counter backed by an `asyncio.Queue`; only its size is
observable. -/
structure MultiLock where
  queueSize : Nat
deriving DecidableEq, Repr

/-- `MultiLock.__enter__`: `queue.put_nowait(None)` — increments the size,
never blocks. -/
def MultiLock.enter (l : MultiLock) : MultiLock :=
  ⟨l.queueSize + 1⟩

/-- `MultiLock.__exit__`: `get_nowait` + `task_done` with `QueueEmpty`
suppressed — decrements the size, a no-op on an empty queue
(truncated subtraction models the suppressed exception). -/
def MultiLock.exit (l : MultiLock) : MultiLock :=
  ⟨l.queueSize - 1⟩

/-- Observable events of one `consume()` call: parser invocations, log
context mutations (the context repository
`faststream/utils/context/repository.py` is not under `src/` and is
modelled from the spec as a settable/resettable local value), wrapped
handler invocations, `close()`, the four distinct `trigger` call sites of
the watcher collaborator (modelled from the spec: `HandlerCallWrapper.trigger`
is not under `src/`), and publishes. -/
inductive Event where
  | parsed (item : Nat)
  | setLogContext (v : Val)
  | resetLogContext
  | handlerInvoked (item : Nat)
  | closeCalled
  | triggerStop (item : Nat)
  | triggerHandlerErr (item : Nat)
  | triggerErr (item : Nat) (e : Val)
  | triggerSuccess (item : Nat) (r : Option Val)
  | publish (pub : Nat) (message : Option Val) (correlation_id : Nat)
deriving DecidableEq, Repr

/-- The two `assert` statements of `BaseHandler.consume`. -/
inductive AssertKind where
  | multipleConsumers
  | mustConsume
deriving DecidableEq, Repr

/-- An exception propagating out of `consume()`: a failed assertion, a
declared handler error (`HandlerException`), or any other error. -/
inductive Exc where
  | assertionError (k : AssertKind)
  | handlerError (e : Val)
  | otherError (e : Val)
deriving DecidableEq, Repr

/-- The Subscription Dispatcher state (`BaseHandler`): ordered handler
items, global middlewares, the log-context builder, the `running` flag,
the Drain Lock, and the ambient local log-context value of the context
repository. -/
structure BaseHandler where
  calls : List HandlerItem
  middlewares : List Middleware
  log_context_builder : StreamMsg → Val
  running : Bool
  lock : MultiLock
  logContext : Option Val

/-- The mutable state of the handler-item loop inside one `consume()`
call: the `running` flag (mutated by `close()` on a controlled stop), the
`logged` flag, the log-context token and current local value, the
`processed` flag, the `result` / `result_msg` variables, and the trace of
observable events so far. -/
structure LoopState where
  running : Bool
  logged : Bool
  log_context_tag : Option (Option Val)
  logContext : Option Val
  processed : Bool
  result : Option (Option Val × Option Publisher)
  result_msg : Option Val
  events : List Event

/-- Consume-scope wrapping: `message.decoded_body` threaded through every
middleware's `consume_scope` in chain order. -/
def wrapConsume (mws : List Middleware) (v : Val) : Val :=
  mws.foldl (fun acc m => m.consumeWrap acc) v

/-- Publish-scope wrapping: an outgoing value threaded through every
middleware's `publish_scope` in chain order. -/
def wrapPublish (mws : List Middleware) (v : Option Val) : Option Val :=
  mws.foldl (fun acc m => m.publishWrap acc) v

/-- The envelope a handler item's filter sees: the raw message parsed by
the item's own parser, its body decoded by the item's decoder, and the
`processed` flag copied from the loop's `processed` variable. -/
def itemView (h : HandlerItem) (msg : Val) (processed : Bool) : StreamMsg :=
  let m := h.parser msg
  { m with decoded_body := h.decoder m, processed := processed }

/-- The envelope the wrapped handler is invoked with: the filter's view
(with `processed = false`, the only state in which the call happens) whose
decoded body has additionally been wrapped through the combined
global-first middleware chain's consume scopes. -/
def invokedView (gl : List Middleware) (h : HandlerItem) (msg : Val) : StreamMsg :=
  let m := itemView h msg false
  { m with decoded_body := wrapConsume (gl ++ h.middlewares) m.decoded_body }

/-- The pre-filter part of one loop iteration: parse the raw message with
the item's parser and, when the `logged` flag is false, set the local log
context from the builder applied to this item's parsed envelope,
remembering the previous value as the reset token.  (The source
initialises `logged = False` and never assigns it again.) -/
def preFilter (b : StreamMsg → Val) (msg : Val) (s : LoopState) (h : HandlerItem) :
    LoopState :=
  if s.logged then
    { s with events := s.events ++ [Event.parsed h.hid] }
  else
    { s with
      log_context_tag := some s.logContext,
      logContext := some (b (h.parser msg)),
      events := s.events ++ [Event.parsed h.hid,
                             Event.setLogContext (b (h.parser msg))] }

/-- The publish loop of the success branch: for every non-`None` publisher
among the inline response target followed by the item's static publishers,
publish the result wrapped through every middleware's publish scope, with
the correlation id of the parsed envelope. -/
def publishEvents (allMw : List Middleware) (h : HandlerItem) (msg : Val)
    (rm : Option Val) (pubResp : Option Publisher) : List Event :=
  ((pubResp :: h.publishers.map some).filterMap id).map
    (fun pub => Event.publish pub.pid (wrapPublish allMw rm) (h.parser msg).correlation_id)

/-- One iteration of the handler-item loop of `BaseHandler.consume`
(lines 217-292 of `faststream/broker/handler.py`, with `IS_OPTIMIZED`
false, so assertions are active and there is no fast-path `break`):
parse, maybe set the log context, decode, copy `processed` into the
envelope, filter; on a match assert `not processed`, wrap the body through
the consume scopes, invoke the handler, and dispatch on its outcome.
Returns the next loop state, or the exception aborting the loop together
with the state at that point. -/
def processItem (gl : List Middleware) (b : StreamMsg → Val) (msg : Val)
    (s : LoopState) (h : HandlerItem) : LoopState ⊕ (Exc × LoopState) :=
  let s1 := preFilter b msg s h
  if h.filter (itemView h msg s.processed) then
    if s.processed then
      Sum.inr (Exc.assertionError AssertKind.multipleConsumers, s1)
    else
      let s2 := { s1 with events := s1.events ++ [Event.handlerInvoked h.hid] }
      match h.call_wrapped (invokedView gl h msg) with
      | HandlerOutcome.stopConsume =>
          Sum.inl { s2 with
            running := false,
            events := s2.events ++ [Event.closeCalled, Event.triggerStop h.hid] }
      | HandlerOutcome.handlerError e =>
          Sum.inr (Exc.handlerError e,
            { s2 with events := s2.events ++ [Event.triggerHandlerErr h.hid] })
      | HandlerOutcome.otherError e =>
          Sum.inr (Exc.otherError e,
            { s2 with events := s2.events ++ [Event.triggerErr h.hid e] })
      | HandlerOutcome.success result =>
          match result with
          | none =>
              Sum.inl { s2 with
                result := none,
                processed := true,
                events := s2.events ++ [Event.triggerSuccess h.hid none] }
          | some (rm, pubResp) =>
              Sum.inl { s2 with
                result := some (rm, pubResp),
                result_msg := rm,
                processed := true,
                events := s2.events
                  ++ publishEvents (gl ++ h.middlewares) h msg rm pubResp
                  ++ [Event.triggerSuccess h.hid rm] }
  else
    Sum.inl s1

/-- The handler-item loop: items processed strictly sequentially in
registration order; the first exception aborts the loop. -/
def runItems (gl : List Middleware) (b : StreamMsg → Val) (msg : Val) :
    List HandlerItem → LoopState → LoopState ⊕ (Exc × LoopState)
  | [], s => Sum.inl s
  | h :: rest, s =>
      match processItem gl b msg s h with
      | Sum.inl s1 => runItems gl b msg rest s1
      | Sum.inr e => Sum.inr e

/-- How one `consume()` call ends: a normal return of the sendable result,
or a propagated exception. -/
inductive ConsumeExit where
  | normal (ret : Option Val)
  | raised (e : Exc)
deriving DecidableEq, Repr

/-- The full observable outcome of one `consume()` call: how it ended, the
dispatcher state afterwards, and the trace of observable events. -/
structure ConsumeResult where
  exit : ConsumeExit
  state : BaseHandler
  events : List Event

/-- The initial loop state of one running `consume()` call. -/
def initLoopState (self : BaseHandler) : LoopState :=
  { running := self.running,
    logged := false,
    log_context_tag := none,
    logContext := self.logContext,
    processed := false,
    result := none,
    result_msg := none,
    events := [] }

/-- `BaseHandler.consume` (lines 187-299 of
`faststream/broker/handler.py`): return `None` immediately when not
running; otherwise enter the Drain Lock, run the handler-item loop, assert
`not self.running or processed` afterwards, and — only on the normal,
non-raising path — reset the log context to the last remembered token.
The `AsyncExitStack` guarantees the Drain Lock exit on every path, so
every branch below exits the lock exactly once. -/
def BaseHandler.consume (self : BaseHandler) (msg : Val) : ConsumeResult :=
  if self.running = false then
    { exit := ConsumeExit.normal none, state := self, events := [] }
  else
    let lock1 := self.lock.enter
    match runItems self.middlewares self.log_context_builder msg self.calls
        (initLoopState self) with
    | Sum.inl s =>
        if s.running && !s.processed then
          let st := { self with running := s.running, lock := lock1.exit, logContext := s.logContext }
          { exit := ConsumeExit.raised (Exc.assertionError AssertKind.mustConsume),
            state := st, events := s.events }
        else
          match s.log_context_tag with
          | some tok =>
              let st := { self with running := s.running, lock := lock1.exit, logContext := tok }
              { exit := ConsumeExit.normal s.result_msg,
                state := st, events := s.events ++ [Event.resetLogContext] }
          | none =>
              let st := { self with running := s.running, lock := lock1.exit, logContext := s.logContext }
              { exit := ConsumeExit.normal s.result_msg,
                state := st, events := s.events }
    | Sum.inr (e, s) =>
        let st := { self with running := s.running, lock := lock1.exit, logContext := s.logContext }
        { exit := ConsumeExit.raised e,
          state := st, events := s.events }

/-- Recognises publish events in a trace. -/
def isPublishEv : Event → Bool
  | Event.publish _ _ _ => true
  | _ => false

/-- Projects the item id out of a parser-invocation event. -/
def parsedId : Event → Option Nat
  | Event.parsed i => some i
  | _ => none

/-- Projects the installed value out of a log-context set event. -/
def logSetVal : Event → Option Val
  | Event.setLogContext v => some v
  | _ => none

/-- The local log-context value left behind by a trace of events, starting
from the value `d`: the value of the last `setLogContext` event, or `d`
when the trace sets none. -/
def lastLogSet : List Event → Option Val → Option Val
  | [], d => d
  | e :: rest, d =>
      lastLogSet rest (match e with | Event.setLogContext v => some v | _ => d)

/-- Loop invariant tying the local log-context value to the event trace:
the current value is the one left by the trace, and the loop itself never
emits a reset event. -/
def LogInv (d : Option Val) (s : LoopState) : Prop :=
  s.logContext = lastLogSet s.events d ∧ Event.resetLogContext ∉ s.events

/-- Loop invariant for the returned value: once `processed` is set, the
trace records a success trigger carrying exactly the current
`result_msg`; before any item has consumed the message, `result_msg` is
still the initial `None`. -/
def ResultInv (s : LoopState) : Prop :=
  (s.processed = true → ∃ i, Event.triggerSuccess i s.result_msg ∈ s.events) ∧
  (s.processed = false → s.result_msg = none)

/-- Concrete handler item used to evaluate the model: constant filter
verdict `acc`, a parser stamping correlation id 7 and body `raw + i`, a
decoder adding one, no local middlewares, a constant handler outcome and
the given static publishers. -/
def wItem (i : Nat) (acc : Bool) (out : HandlerOutcome) (pubs : List Publisher) :
    HandlerItem :=
  { hid := i,
    filter := fun _ => acc,
    parser := fun r => ⟨7, r + i, 0, false⟩,
    decoder := fun m => m.body + 1,
    middlewares := [],
    call_wrapped := fun _ => out,
    publishers := pubs }

/-- Concrete dispatcher used to evaluate the model: the given items, no
global middlewares, a log-context builder multiplying the parsed body by
ten, an empty Drain Lock and no ambient log context. -/
def wState (items : List HandlerItem) (run : Bool) : BaseHandler :=
  { calls := items,
    middlewares := [],
    log_context_builder := fun m => m.body * 10,
    running := run,
    lock := ⟨0⟩,
    logContext := none }

lemma lastLogSet_append (xs ys : List Event) (d : Option Val) :
    lastLogSet (xs ++ ys) d = lastLogSet ys (lastLogSet xs d) := by
  induction xs generalizing d with
  | nil => rfl
  | cons e rest ih => simp [lastLogSet, ih]

lemma lastLogSet_no_set (l : List Event) (d : Option Val)
    (h : ∀ e ∈ l, logSetVal e = none) : lastLogSet l d = d := by
  induction l generalizing d with
  | nil => rfl
  | cons e rest ih =>
      have he := h e (List.mem_cons_self e rest)
      have hrest : ∀ x ∈ rest, logSetVal x = none :=
        fun x hx => h x (List.mem_cons_of_mem e hx)
      cases e
      case setLogContext v => simp [logSetVal] at he
      all_goals exact ih _ hrest

@[simp] lemma MultiLock.exit_enter (l : MultiLock) : l.enter.exit = l := by
  cases l
  rfl

@[simp] lemma preFilter_running (b : StreamMsg → Val) (msg : Val) (s : LoopState)
    (h : HandlerItem) : (preFilter b msg s h).running = s.running := by
  unfold preFilter
  split <;> rfl

@[simp] lemma preFilter_processed (b : StreamMsg → Val) (msg : Val) (s : LoopState)
    (h : HandlerItem) : (preFilter b msg s h).processed = s.processed := by
  unfold preFilter
  split <;> rfl

@[simp] lemma preFilter_logged (b : StreamMsg → Val) (msg : Val) (s : LoopState)
    (h : HandlerItem) : (preFilter b msg s h).logged = s.logged := by
  unfold preFilter
  split <;> rfl

@[simp] lemma preFilter_result (b : StreamMsg → Val) (msg : Val) (s : LoopState)
    (h : HandlerItem) : (preFilter b msg s h).result = s.result := by
  unfold preFilter
  split <;> rfl

@[simp] lemma preFilter_result_msg (b : StreamMsg → Val) (msg : Val) (s : LoopState)
    (h : HandlerItem) : (preFilter b msg s h).result_msg = s.result_msg := by
  unfold preFilter
  split <;> rfl

lemma preFilter_events (b : StreamMsg → Val) (msg : Val) (s : LoopState)
    (h : HandlerItem) :
    ∃ evs, (preFilter b msg s h).events = s.events ++ evs ∧
      Event.resetLogContext ∉ evs ∧ (∀ e ∈ evs, isPublishEv e = false) := by
  unfold preFilter
  split
  · exact ⟨[Event.parsed h.hid], rfl, by simp, by simp [isPublishEv]⟩
  · refine ⟨[Event.parsed h.hid, Event.setLogContext (b (h.parser msg))], rfl, by simp, ?_⟩
    intro e he
    simp only [List.mem_cons, List.not_mem_nil, or_false] at he
    rcases he with rfl | rfl <;> rfl

lemma processItem_nomatch (gl : List Middleware) (b : StreamMsg → Val) (msg : Val)
    (s : LoopState) (h : HandlerItem)
    (hf : h.filter (itemView h msg s.processed) = false) :
    processItem gl b msg s h = Sum.inl (preFilter b msg s h) := by
  simp [processItem, hf]

lemma publishEvents_no_set (allMw : List Middleware) (h : HandlerItem) (msg : Val)
    (rm : Option Val) (pubResp : Option Publisher) :
    ∀ e ∈ publishEvents allMw h msg rm pubResp, logSetVal e = none := by
  intro e he
  simp only [publishEvents, List.mem_map] at he
  obtain ⟨pub, _, rfl⟩ := he
  rfl

lemma publishEvents_no_reset (allMw : List Middleware) (h : HandlerItem) (msg : Val)
    (rm : Option Val) (pubResp : Option Publisher) :
    Event.resetLogContext ∉ publishEvents allMw h msg rm pubResp := by
  intro hmem
  simp only [publishEvents, List.mem_map] at hmem
  obtain ⟨pub, _, hp⟩ := hmem
  cases hp

lemma publishEvents_isPublish (allMw : List Middleware) (h : HandlerItem) (msg : Val)
    (rm : Option Val) (pubResp : Option Publisher) :
    ∀ e ∈ publishEvents allMw h msg rm pubResp, isPublishEv e = true := by
  intro e he
  simp only [publishEvents, List.mem_map] at he
  obtain ⟨pub, _, rfl⟩ := he
  rfl

lemma publishEvents_no_invoked (allMw : List Middleware) (h : HandlerItem) (msg : Val)
    (rm : Option Val) (pubResp : Option Publisher) (i : Nat) :
    Event.handlerInvoked i ∉ publishEvents allMw h msg rm pubResp := by
  intro hmem
  simp only [publishEvents, List.mem_map] at hmem
  obtain ⟨pub, _, hp⟩ := hmem
  cases hp

lemma publishEvents_parsedId (allMw : List Middleware) (h : HandlerItem) (msg : Val)
    (rm : Option Val) (pubResp : Option Publisher) :
    ∀ e ∈ publishEvents allMw h msg rm pubResp, parsedId e = none := by
  intro e he
  simp only [publishEvents, List.mem_map] at he
  obtain ⟨pub, _, rfl⟩ := he
  rfl

lemma preFilter_loginv (b : StreamMsg → Val) (msg : Val) (s : LoopState)
    (h : HandlerItem) (d : Option Val) (hinv : LogInv d s) :
    LogInv d (preFilter b msg s h) := by
  obtain ⟨h1, h2⟩ := hinv
  unfold preFilter LogInv
  split
  · exact ⟨by simp [lastLogSet_append, lastLogSet, h1], by simp [h2]⟩
  · exact ⟨by simp [lastLogSet_append, lastLogSet], by simp [h2]⟩

lemma loginv_record (d : Option Val) (s t : LoopState) (evs : List Event)
    (hlc : t.logContext = s.logContext) (hev : t.events = s.events ++ evs)
    (hinv : LogInv d s) (hset : ∀ e ∈ evs, logSetVal e = none)
    (hreset : Event.resetLogContext ∉ evs) : LogInv d t := by
  obtain ⟨h1, h2⟩ := hinv
  constructor
  · rw [hev, hlc, lastLogSet_append, lastLogSet_no_set evs _ hset, h1]
  · rw [hev]
    simp [h2, hreset]

lemma no_set_append (l1 l2 : List Event) (h1 : ∀ e ∈ l1, logSetVal e = none)
    (h2 : ∀ e ∈ l2, logSetVal e = none) : ∀ e ∈ l1 ++ l2, logSetVal e = none := by
  intro e he
  rcases List.mem_append.mp he with hm | hm
  · exact h1 e hm
  · exact h2 e hm

lemma processItem_loginv (gl : List Middleware) (b : StreamMsg → Val) (msg : Val)
    (s : LoopState) (h : HandlerItem) (d : Option Val) (hinv : LogInv d s) :
    (∀ t, processItem gl b msg s h = Sum.inl t → LogInv d t) ∧
    (∀ e t, processItem gl b msg s h = Sum.inr (e, t) → LogInv d t) := by
  have hpre := preFilter_loginv b msg s h d hinv
  constructor
  · intro t ht
    unfold processItem at ht
    split at ht
    · split at ht
      · cases ht
      · split at ht
        · simp only [Sum.inl.injEq] at ht
          subst ht
          refine loginv_record d (preFilter b msg s h) _
            ([Event.handlerInvoked h.hid] ++ [Event.closeCalled, Event.triggerStop h.hid])
            rfl (by simp) hpre ?_ (by simp)
          intro e he
          simp only [List.mem_append, List.mem_cons, List.not_mem_nil, or_false] at he
          rcases he with rfl | rfl | rfl <;> rfl
        · cases ht
        · cases ht
        · split at ht
          · simp only [Sum.inl.injEq] at ht
            subst ht
            refine loginv_record d (preFilter b msg s h) _
              ([Event.handlerInvoked h.hid] ++ [Event.triggerSuccess h.hid none])
              rfl (by simp) hpre ?_ (by simp)
            intro e he
            simp only [List.mem_append, List.mem_cons, List.not_mem_nil, or_false] at he
            rcases he with rfl | rfl <;> rfl
          · simp only [Sum.inl.injEq] at ht
            subst ht
            rename_i rm pr heq
            refine loginv_record d (preFilter b msg s h) _
              ([Event.handlerInvoked h.hid] ++ publishEvents (gl ++ h.middlewares) h msg rm pr
                ++ [Event.triggerSuccess h.hid rm]) rfl (by simp) hpre ?_ ?_
            · refine no_set_append _ _ (no_set_append _ _ ?_ (publishEvents_no_set _ _ _ _ _)) ?_
              · intro e he
                simp only [List.mem_cons, List.not_mem_nil, or_false] at he
                subst he
                rfl
              · intro e he
                simp only [List.mem_cons, List.not_mem_nil, or_false] at he
                subst he
                rfl
            · simp only [List.mem_append, List.mem_cons, List.not_mem_nil, or_false]
              push_neg
              exact ⟨⟨by simp, publishEvents_no_reset _ _ _ _ _⟩, by simp⟩
    · simp only [Sum.inl.injEq] at ht
      subst ht
      exact hpre
  · intro e t ht
    unfold processItem at ht
    split at ht
    · split at ht
      · simp only [Sum.inr.injEq, Prod.mk.injEq] at ht
        exact ht.2 ▸ hpre
      · split at ht
        · cases ht
        · simp only [Sum.inr.injEq, Prod.mk.injEq] at ht
          obtain ⟨-, rfl⟩ := ht
          refine loginv_record d (preFilter b msg s h) _
            ([Event.handlerInvoked h.hid] ++ [Event.triggerHandlerErr h.hid])
            rfl (by simp) hpre ?_ (by simp)
          intro x hx
          simp only [List.mem_append, List.mem_cons, List.not_mem_nil, or_false] at hx
          rcases hx with rfl | rfl <;> rfl
        · rename_i e0 heq0
          simp only [Sum.inr.injEq, Prod.mk.injEq] at ht
          obtain ⟨-, rfl⟩ := ht
          refine loginv_record d (preFilter b msg s h) _
            ([Event.handlerInvoked h.hid] ++ [Event.triggerErr h.hid e0])
            rfl (by simp) hpre ?_ (by simp)
          intro x hx
          simp only [List.mem_append, List.mem_cons, List.not_mem_nil, or_false] at hx
          rcases hx with rfl | rfl <;> rfl
        · split at ht
          · cases ht
          · cases ht
    · cases ht

lemma runItems_loginv (gl : List Middleware) (b : StreamMsg → Val) (msg : Val)
    (d : Option Val) :
    ∀ (items : List HandlerItem) (s : LoopState), LogInv d s →
      (∀ t, runItems gl b msg items s = Sum.inl t → LogInv d t) ∧
      (∀ e t, runItems gl b msg items s = Sum.inr (e, t) → LogInv d t) := by
  intro items
  induction items with
  | nil =>
      intro s hs
      exact ⟨fun t ht => by cases ht; exact hs, fun e t ht => by cases ht⟩
  | cons h rest ih =>
      intro s hs
      have hstep := processItem_loginv gl b msg s h d hs
      constructor
      · intro t ht
        unfold runItems at ht
        split at ht
        · next s1 heq => exact (ih s1 (hstep.1 s1 heq)).1 t ht
        · cases ht
      · intro e t ht
        unfold runItems at ht
        split at ht
        · next s1 heq => exact (ih s1 (hstep.1 s1 heq)).2 e t ht
        · next p heq =>
            cases ht
            exact hstep.2 _ _ heq

lemma processItem_resultinv (gl : List Middleware) (b : StreamMsg → Val) (msg : Val)
    (s : LoopState) (h : HandlerItem) (t : LoopState)
    (ht : processItem gl b msg s h = Sum.inl t) (hinv : ResultInv s) : ResultInv t := by
  obtain ⟨h1, h2⟩ := hinv
  unfold processItem at ht
  split at ht
  · split at ht
    · cases ht
    · rename_i hfil hproc
      have hp0 : s.processed = false := by
        revert hproc
        cases s.processed <;> simp
      split at ht
      · simp only [Sum.inl.injEq] at ht
        subst ht
        constructor
        · intro hp
          simp [hp0] at hp
        · intro hp
          simp [h2 hp0]
      · cases ht
      · cases ht
      · split at ht
        · simp only [Sum.inl.injEq] at ht
          subst ht
          constructor
          · intro hp
            exact ⟨h.hid, by simp [h2 hp0]⟩
          · intro hp
            simp at hp
        · simp only [Sum.inl.injEq] at ht
          subst ht
          constructor
          · intro hp
            exact ⟨h.hid, by simp⟩
          · intro hp
            simp at hp
  · simp only [Sum.inl.injEq] at ht
    subst ht
    obtain ⟨evs, hev, -, -⟩ := preFilter_events b msg s h
    constructor
    · intro hp
      simp only [preFilter_processed] at hp
      obtain ⟨i, hi⟩ := h1 hp
      refine ⟨i, ?_⟩
      rw [preFilter_result_msg, hev]
      exact List.mem_append_left _ hi
    · intro hp
      simp only [preFilter_processed] at hp
      rw [preFilter_result_msg]
      exact h2 hp

lemma runItems_resultinv (gl : List Middleware) (b : StreamMsg → Val) (msg : Val) :
    ∀ (items : List HandlerItem) (s t : LoopState),
      runItems gl b msg items s = Sum.inl t → ResultInv s → ResultInv t := by
  intro items
  induction items with
  | nil =>
      intro s t ht hs
      cases ht
      exact hs
  | cons h rest ih =>
      intro s t ht hs
      unfold runItems at ht
      split at ht
      · next s1 heq => exact ih s1 t ht (processItem_resultinv gl b msg s h s1 heq hs)
      · cases ht

lemma runItems_nomatch (gl : List Middleware) (b : StreamMsg → Val) (msg : Val) :
    ∀ (items : List HandlerItem) (s : LoopState),
      s.processed = false → s.running = true →
      (∀ h ∈ items, h.filter (itemView h msg false) = false) →
      ∃ t, runItems gl b msg items s = Sum.inl t ∧
        t.processed = false ∧ t.running = true := by
  intro items
  induction items with
  | nil =>
      intro s hp hr _
      exact ⟨s, rfl, hp, hr⟩
  | cons h rest ih =>
      intro s hp hr hall
      have hf : h.filter (itemView h msg s.processed) = false := by
        rw [hp]
        exact hall h (List.mem_cons_self h rest)
      obtain ⟨t, hrun, hp2, hr2⟩ := ih (preFilter b msg s h) (by simp [hp]) (by simp [hr])
        (fun g hg => hall g (List.mem_cons_of_mem h hg))
      refine ⟨t, ?_, hp2, hr2⟩
      unfold runItems
      rw [processItem_nomatch gl b msg s h hf]
      exact hrun

/-- C3: for every dispatch outcome of `consume()` — success, controlled
stop, declared handler error, unclassified error or a failed assertion —
the Drain Lock's in-flight count after the call equals its value before
the call: the entry made on the way in is paired with exactly one exit on
every exit path. -/
theorem consume_lock_balanced (st : BaseHandler) (msg : Val) :
    (st.consume msg).state.lock = st.lock := by
  unfold BaseHandler.consume
  split
  · rfl
  · split
    · split
      · simp
      · split <;> simp
    · simp

/-- C2: if the dispatcher is running and no registered item's filter
accepts the delivered message — in particular when there are zero
registered handler items — `consume()` raises the you-have-to-consume
invariant-violation assertion after the loop. -/
theorem consume_unconsumed_running_asserts (st : BaseHandler) (msg : Val)
    (hr : st.running = true)
    (hnm : ∀ h ∈ st.calls, h.filter (itemView h msg false) = false) :
    (st.consume msg).exit =
      ConsumeExit.raised (Exc.assertionError AssertKind.mustConsume) := by
  obtain ⟨t, hrun, hp, hr2⟩ := runItems_nomatch st.middlewares st.log_context_builder msg
    st.calls (initLoopState st) (by simp [initLoopState]) (by simp [initLoopState, hr]) hnm
  simp [BaseHandler.consume, hr, hrun, hp, hr2]

theorem consume_unconsumed_running_asserts_witness :
    ((wState [] true).consume 3).exit =
      ConsumeExit.raised (Exc.assertionError AssertKind.mustConsume) := by
  refine consume_unconsumed_running_asserts (wState [] true) 3 rfl ?_
  intro h hm
  simp [wState] at hm

/-- C10: whenever `consume()` exits by propagating an exception (a
declared handler error, an unclassified error, or an invariant-violation
assertion), the log-context reset never runs: the trace holds no reset
event and the ambient log-context value stays whatever the last
`set_local` of the call installed. -/
theorem consume_log_reset_only_on_normal_exit (st : BaseHandler) (msg : Val) (e : Exc)
    (hex : (st.consume msg).exit = ConsumeExit.raised e) :
    Event.resetLogContext ∉ (st.consume msg).events ∧
      (st.consume msg).state.logContext =
        lastLogSet (st.consume msg).events st.logContext := by
  have hinv0 : LogInv st.logContext (initLoopState st) := by
    constructor <;> simp [initLoopState, lastLogSet]
  by_cases hr : st.running = false
  · simp [BaseHandler.consume, hr] at hex
  · rcases hrun : runItems st.middlewares st.log_context_builder msg st.calls
        (initLoopState st) with t | ⟨e0, t⟩
    · have hinv := (runItems_loginv st.middlewares st.log_context_builder msg
        st.logContext st.calls (initLoopState st) hinv0).1 t hrun
      by_cases hc : (t.running && !t.processed) = true
      · constructor
        · simp only [BaseHandler.consume, hr, hrun]
          simp [hc, hinv.2]
        · simp only [BaseHandler.consume, hr, hrun]
          simp [hc, hinv.1]
      · exfalso
        rcases htag : t.log_context_tag with _ | tok <;>
          simp [BaseHandler.consume, hr, hrun, hc, htag] at hex
    · have hinv := (runItems_loginv st.middlewares st.log_context_builder msg
        st.logContext st.calls (initLoopState st) hinv0).2 e0 t hrun
      constructor
      · simp only [BaseHandler.consume, hr, hrun]
        simp [hinv.2]
      · simp only [BaseHandler.consume, hr, hrun]
        simp [hinv.1]

theorem consume_log_reset_only_on_normal_exit_witness :
    Event.resetLogContext ∉
        ((wState [wItem 1 true (HandlerOutcome.otherError 9) []] true).consume 3).events ∧
      ((wState [wItem 1 true (HandlerOutcome.otherError 9) []] true).consume 3).state.logContext
        = lastLogSet
            ((wState [wItem 1 true (HandlerOutcome.otherError 9) []] true).consume 3).events
            (wState [wItem 1 true (HandlerOutcome.otherError 9) []] true).logContext :=
  consume_log_reset_only_on_normal_exit
    (wState [wItem 1 true (HandlerOutcome.otherError 9) []] true) 3
    (Exc.otherError 9) (by decide)

/-- C7: when the dispatcher is not running, `consume()` returns the empty
result immediately, with the state untouched and no observable event;
when it is running and returns normally with value `v`, either some item
consumed the message and `v` is exactly the value recorded by that item's
success trigger, or no item consumed it, `v` is empty, and the dispatcher
was stopped during the call. -/
theorem consume_return_value_spec (st : BaseHandler) (msg : Val) :
    (st.running = false → st.consume msg = ⟨ConsumeExit.normal none, st, []⟩) ∧
    (∀ v, st.running = true → (st.consume msg).exit = ConsumeExit.normal v →
      (∃ i, Event.triggerSuccess i v ∈ (st.consume msg).events) ∨
        (v = none ∧ (st.consume msg).state.running = false)) := by
  constructor
  · intro hr
    simp [BaseHandler.consume, hr]
  · intro v hr hex
    rcases hrun : runItems st.middlewares st.log_context_builder msg st.calls
        (initLoopState st) with t | ⟨e0, t⟩
    · have hinv := runItems_resultinv st.middlewares st.log_context_builder msg st.calls
        (initLoopState st) t hrun
        ⟨by intro hp; simp [initLoopState] at hp, by intro _; simp [initLoopState]⟩
      by_cases hc : (t.running && !t.processed) = true
      · exfalso
        have hrt : ¬ st.running = false := by simp [hr]
        simp [BaseHandler.consume, hrt, hrun, hc] at hex
      · have hrt : ¬ st.running = false := by simp [hr]
        have hv : v = t.result_msg := by
          rcases htag : t.log_context_tag with _ | tok <;>
            simp [BaseHandler.consume, hrt, hrun, hc, htag] at hex <;> exact hex.symm
        have hevsub : ∀ x, x ∈ t.events → x ∈ (st.consume msg).events := by
          rcases htag : t.log_context_tag with _ | tok <;>
            intro x hx <;> simp [BaseHandler.consume, hrt, hrun, hc, htag, hx]
        cases hproc : t.processed with
        | true =>
            obtain ⟨i, hi⟩ := hinv.1 hproc
            left
            exact ⟨i, hv ▸ hevsub _ hi⟩
        | false =>
            have hrf : t.running = false := by
              revert hc
              rw [hproc]
              cases t.running <;> simp
            right
            constructor
            · rw [hv]
              exact hinv.2 hproc
            · rcases htag : t.log_context_tag with _ | tok <;>
                simp [BaseHandler.consume, hrt, hrun, hc, htag, hrf]
    · exfalso
      have hrt : ¬ st.running = false := by simp [hr]
      simp [BaseHandler.consume, hrt, hrun] at hex

theorem consume_return_value_spec_witness :
    ((wState [] false).consume 3 = ⟨ConsumeExit.normal none, wState [] false, []⟩) ∧
    (∃ i, Event.triggerSuccess i (some 42) ∈
      ((wState [wItem 1 true (HandlerOutcome.success (some (some 42, none))) []]
        true).consume 3).events) := by
  constructor
  · exact (consume_return_value_spec (wState [] false) 3).1 rfl
  · have h := (consume_return_value_spec
      (wState [wItem 1 true (HandlerOutcome.success (some (some 42, none))) []] true) 3).2
      (some 42) rfl (by decide)
    exact h.resolve_right (by decide)

/-- C1: if, during one `consume()` call on a running dispatcher, an
earlier item's filter accepted and its handler succeeded (so
`processed` is already true) and a later item's filter also accepts the
same delivery, the you-cannot-process-with-multiple-consumers assertion
is raised: at most one registered item's filter may accept a single
delivery. -/
theorem consume_overlapping_match_asserts (st : BaseHandler) (msg : Val)
    (h1 h2 : HandlerItem) (res : Option (Option Val × Option Publisher))
    (hr : st.running = true)
    (hc : st.calls = [h1, h2])
    (hf1 : h1.filter (itemView h1 msg false) = true)
    (hs : h1.call_wrapped (invokedView st.middlewares h1 msg) = HandlerOutcome.success res)
    (hf2 : h2.filter (itemView h2 msg true) = true) :
    (st.consume msg).exit =
      ConsumeExit.raised (Exc.assertionError AssertKind.multipleConsumers) := by
  have hrt : ¬ st.running = false := by simp [hr]
  rcases res with _ | ⟨rm, pr⟩ <;>
    simp [BaseHandler.consume, hrt, hc, runItems, processItem, preFilter, initLoopState,
      hf1, hs, hf2]

theorem consume_overlapping_match_asserts_witness :
    ((wState [wItem 1 true (HandlerOutcome.success (some (some 42, none))) [],
              wItem 2 true (HandlerOutcome.success (some (some 43, none))) []]
        true).consume 3).exit =
      ConsumeExit.raised (Exc.assertionError AssertKind.multipleConsumers) :=
  consume_overlapping_match_asserts _ 3 _ _ (some (some 42, none)) rfl rfl rfl rfl rfl

/-- C4: if the single matching handler raises the controlled-stop signal,
`consume()` calls `close()` (the running flag ends false), records an
outcome on the watcher via the item's trigger, and swallows the signal —
the call returns normally with the empty result instead of raising. -/
theorem consume_stop_signal_swallowed (st : BaseHandler) (msg : Val) (h : HandlerItem)
    (hr : st.running = true) (hc : st.calls = [h])
    (hf : h.filter (itemView h msg false) = true)
    (hs : h.call_wrapped (invokedView st.middlewares h msg) = HandlerOutcome.stopConsume) :
    (st.consume msg).exit = ConsumeExit.normal none ∧
      (st.consume msg).state.running = false ∧
      Event.closeCalled ∈ (st.consume msg).events ∧
      Event.triggerStop h.hid ∈ (st.consume msg).events := by
  have hrt : ¬ st.running = false := by simp [hr]
  refine ⟨?_, ?_, ?_, ?_⟩ <;>
    simp [BaseHandler.consume, hrt, hc, runItems, processItem, preFilter, initLoopState,
      hf, hs]

theorem consume_stop_signal_swallowed_witness :
    ((wState [wItem 1 true HandlerOutcome.stopConsume []] true).consume 3).exit =
        ConsumeExit.normal none ∧
      ((wState [wItem 1 true HandlerOutcome.stopConsume []] true).consume 3).state.running
        = false ∧
      Event.closeCalled
        ∈ ((wState [wItem 1 true HandlerOutcome.stopConsume []] true).consume 3).events ∧
      Event.triggerStop 1
        ∈ ((wState [wItem 1 true HandlerOutcome.stopConsume []] true).consume 3).events := by
  have h := consume_stop_signal_swallowed (wState [wItem 1 true HandlerOutcome.stopConsume []]
    true) 3 (wItem 1 true HandlerOutcome.stopConsume []) rfl rfl rfl rfl
  simpa [wItem] using h

/-- C5: if the matched handler raises a declared handler error, the
watcher records an outcome through the item's error-less trigger call and
the very same declared error propagates to the caller; if it raises any
other error, the watcher records an outcome carrying that error and the
same error propagates to the caller. -/
theorem consume_errors_recorded_and_reraised (st : BaseHandler) (msg : Val)
    (h : HandlerItem) (e : Val) (declared : Bool)
    (hr : st.running = true) (hc : st.calls = [h])
    (hf : h.filter (itemView h msg false) = true)
    (hout : h.call_wrapped (invokedView st.middlewares h msg) =
      (if declared then HandlerOutcome.handlerError e else HandlerOutcome.otherError e)) :
    (st.consume msg).exit =
        ConsumeExit.raised (if declared then Exc.handlerError e else Exc.otherError e) ∧
      (if declared then Event.triggerHandlerErr h.hid else Event.triggerErr h.hid e)
        ∈ (st.consume msg).events := by
  have hrt : ¬ st.running = false := by simp [hr]
  cases declared <;>
    refine ⟨?_, ?_⟩ <;>
      simp [BaseHandler.consume, hrt, hc, runItems, processItem, preFilter, initLoopState,
        hf, hout]

theorem consume_errors_recorded_and_reraised_witness :
    (((wState [wItem 1 true (HandlerOutcome.handlerError 9) []] true).consume 3).exit =
        ConsumeExit.raised (Exc.handlerError 9) ∧
      Event.triggerHandlerErr 1
        ∈ ((wState [wItem 1 true (HandlerOutcome.handlerError 9) []] true).consume 3).events) ∧
    (((wState [wItem 1 true (HandlerOutcome.otherError 8) []] true).consume 3).exit =
        ConsumeExit.raised (Exc.otherError 8) ∧
      Event.triggerErr 1 8
        ∈ ((wState [wItem 1 true (HandlerOutcome.otherError 8) []] true).consume 3).events) := by
  constructor
  · have h := consume_errors_recorded_and_reraised
      (wState [wItem 1 true (HandlerOutcome.handlerError 9) []] true) 3
      (wItem 1 true (HandlerOutcome.handlerError 9) []) 9 true rfl rfl rfl rfl
    simpa [wItem] using h
  · have h := consume_errors_recorded_and_reraised
      (wState [wItem 1 true (HandlerOutcome.otherError 8) []] true) 3
      (wItem 1 true (HandlerOutcome.otherError 8) []) 8 false rfl rfl rfl rfl
    simpa [wItem] using h

lemma publishEvents_filter_isPublish (allMw : List Middleware) (h : HandlerItem)
    (msg : Val) (rm : Option Val) (pubResp : Option Publisher) :
    (publishEvents allMw h msg rm pubResp).filter isPublishEv =
      publishEvents allMw h msg rm pubResp :=
  List.filter_eq_self.mpr (publishEvents_isPublish allMw h msg rm pubResp)

lemma publishEvents_filterMap_parsedId (allMw : List Middleware) (h : HandlerItem)
    (msg : Val) (rm : Option Val) (pubResp : Option Publisher) :
    (publishEvents allMw h msg rm pubResp).filterMap parsedId = [] := by
  rw [List.filterMap_eq_nil_iff]
  exact publishEvents_parsedId allMw h msg rm pubResp

/-- C6: with registered items [A, B, C] where only B's filter accepts the
delivery, `consume()` returns B's handler output, B's wrapped handler is
the only handler invoked, and the items are visited strictly sequentially
in registration order (the parser-call trace is exactly [A, B, C]). -/
theorem consume_first_match_deterministic (st : BaseHandler) (msg : Val)
    (a b c : HandlerItem) (rm : Option Val) (pr : Option Publisher)
    (hr : st.running = true) (hc : st.calls = [a, b, c])
    (hfa : a.filter (itemView a msg false) = false)
    (hfb : b.filter (itemView b msg false) = true)
    (hres : b.call_wrapped (invokedView st.middlewares b msg) =
      HandlerOutcome.success (some (rm, pr)))
    (hfc : c.filter (itemView c msg true) = false) :
    (st.consume msg).exit = ConsumeExit.normal rm ∧
      Event.handlerInvoked b.hid ∈ (st.consume msg).events ∧
      (∀ i, Event.handlerInvoked i ∈ (st.consume msg).events → i = b.hid) ∧
      (st.consume msg).events.filterMap parsedId = [a.hid, b.hid, c.hid] := by
  have hrt : ¬ st.running = false := by simp [hr]
  refine ⟨?_, ?_, ?_, ?_⟩
  · simp [BaseHandler.consume, hrt, hc, runItems, processItem, preFilter, initLoopState,
      hfa, hfb, hres, hfc]
  · simp [BaseHandler.consume, hrt, hc, runItems, processItem, preFilter, initLoopState,
      hfa, hfb, hres, hfc]
  · intro i hi
    simp [BaseHandler.consume, hrt, hc, runItems, processItem, preFilter, initLoopState,
      hfa, hfb, hres, hfc, publishEvents] at hi
    exact hi
  · simp [BaseHandler.consume, hrt, hc, runItems, processItem, preFilter, initLoopState,
      hfa, hfb, hres, hfc, List.filterMap_append, publishEvents_filterMap_parsedId, parsedId]

theorem consume_first_match_deterministic_witness :
    ((wState [wItem 1 false (HandlerOutcome.success (some (some 41, none))) [],
              wItem 2 true (HandlerOutcome.success (some (some 42, none))) [],
              wItem 3 false (HandlerOutcome.success (some (some 43, none))) []]
        true).consume 5).exit = ConsumeExit.normal (some 42) ∧
      Event.handlerInvoked 2 ∈
        ((wState [wItem 1 false (HandlerOutcome.success (some (some 41, none))) [],
                  wItem 2 true (HandlerOutcome.success (some (some 42, none))) [],
                  wItem 3 false (HandlerOutcome.success (some (some 43, none))) []]
          true).consume 5).events ∧
      (∀ i, Event.handlerInvoked i ∈
        ((wState [wItem 1 false (HandlerOutcome.success (some (some 41, none))) [],
                  wItem 2 true (HandlerOutcome.success (some (some 42, none))) [],
                  wItem 3 false (HandlerOutcome.success (some (some 43, none))) []]
          true).consume 5).events → i = 2) ∧
      ((wState [wItem 1 false (HandlerOutcome.success (some (some 41, none))) [],
                wItem 2 true (HandlerOutcome.success (some (some 42, none))) [],
                wItem 3 false (HandlerOutcome.success (some (some 43, none))) []]
        true).consume 5).events.filterMap parsedId = [1, 2, 3] := by
  have h := consume_first_match_deterministic
    (wState [wItem 1 false (HandlerOutcome.success (some (some 41, none))) [],
             wItem 2 true (HandlerOutcome.success (some (some 42, none))) [],
             wItem 3 false (HandlerOutcome.success (some (some 43, none))) []] true) 5
    (wItem 1 false (HandlerOutcome.success (some (some 41, none))) [])
    (wItem 2 true (HandlerOutcome.success (some (some 42, none))) [])
    (wItem 3 false (HandlerOutcome.success (some (some 43, none))) [])
    (some 42) none rfl rfl rfl rfl rfl rfl
  simpa [wItem] using h

/-- C8: when the single matching handler succeeds with a result, the
publish events of the call are exactly one publish per non-null publisher
among the inline response target followed by the item's statically bound
publishers, in that order, each carrying the result wrapped through every
middleware's publish scope in the combined global-first chain and the
correlation identifier copied from the inbound parsed message. -/
theorem consume_publishes_with_correlation (st : BaseHandler) (msg : Val)
    (h : HandlerItem) (rm : Option Val) (pr : Option Publisher)
    (hr : st.running = true) (hc : st.calls = [h])
    (hf : h.filter (itemView h msg false) = true)
    (hres : h.call_wrapped (invokedView st.middlewares h msg) =
      HandlerOutcome.success (some (rm, pr))) :
    ((st.consume msg).events).filter isPublishEv =
      ((pr :: h.publishers.map some).filterMap id).map
        (fun pub => Event.publish pub.pid
          (wrapPublish (st.middlewares ++ h.middlewares) rm)
          ((h.parser msg).correlation_id)) := by
  have hrt : ¬ st.running = false := by simp [hr]
  have hpe := publishEvents_filter_isPublish (st.middlewares ++ h.middlewares) h msg rm pr
  simp only [BaseHandler.consume, hrt]
  simp [hc, runItems, processItem, preFilter, initLoopState, hf, hres,
    List.filter_append, hpe, isPublishEv, publishEvents]

theorem consume_publishes_with_correlation_witness :
    (((wState [wItem 1 true (HandlerOutcome.success (some (some 42, none)))
        [Publisher.mk 5]] true).consume 3).events).filter isPublishEv =
      [Event.publish 5 (some 42) 7] := by
  have h := consume_publishes_with_correlation
    (wState [wItem 1 true (HandlerOutcome.success (some (some 42, none)))
      [Publisher.mk 5]] true) 3
    (wItem 1 true (HandlerOutcome.success (some (some 42, none))) [Publisher.mk 5])
    (some 42) none rfl rfl rfl rfl
  simpa [wItem, wState, wrapPublish] using h

/-- C9: the specification says the log-context key is set exactly once
per `consume()` call, from the first handler item's parser output; the
code initialises the `logged` flag to false and never sets it, so it sets
the log context once per handler item — on this two-item dispatcher the
trace holds two set events, 40 derived from the first item's parser
output and 50 from the second item's own parser output. -/
theorem consume_logs_context_per_item :
    (((wState [wItem 1 false (HandlerOutcome.success none) [],
               wItem 2 true (HandlerOutcome.success (some (some 42, none))) []]
        true).consume 3).events).filterMap logSetVal = [40, 50] := by
  decide

end FastStream
